import Mathlib

/-!
Shallow embedding of the image-vectorization sample notebook
`azure-search-vector-image-index-creation-python-sample.ipynb`.

* `vectorize_image` models cell 7: a single HTTP call wrapped in a
  `tenacity.Retrying` loop (`retry=retry_if_exception_type(requests.HTTPError)`,
  `stop_after_attempt(15)`), followed by extraction of the `"vector"`
  field of the JSON response outside the loop.
* `runBatch` models cell 9: enumerate the manifest, skip items whose
  `image_path` is falsy, call the embedder, downgrade any exception to a
  `None` vector plus a printed failure line, and write one JSON record
  per processed item to `output.jsonl` opened in `'w'` mode.
* `loadStore` models cell 13's read loop (`json.loads` per line).
* `publish` models cell 13's `upload_documents` call.
-/

namespace ImageSample

/-- Python exception values that can flow out of `vectorize_image`:
`requests.HTTPError` raised by `raise_for_status`, the `KeyError` from
`response.json()["vector"]`, any other exception raised inside the
attempt body (file I/O errors, connection errors, ...), and
`tenacity.RetryError` wrapping the last failed attempt. -/
inductive PyErr where
  | httpError (status : Nat)
  | keyError
  | otherError (msg : String)
  | retryError (last : PyErr)
deriving DecidableEq

/-- One call to the remote endpoint, as seen inside the `with attempt:`
body: either the body raises a Python exception before a response is
available, or `requests.post` returns a response with a status code and
a JSON body whose `"vector"` field may be missing (`none`). A mock
endpoint is a function of the 0-based call number. -/
inductive AttemptOutcome where
  | raise (e : PyErr)
  | response (status : Nat) (vector : Option (List Int))
deriving DecidableEq

/-- The attempt body of cell 7 on call number `k`:
`response.raise_for_status()` raises `requests.HTTPError` exactly for
status codes in `[400, 600)`; the notebook calls it whenever the status
is not 200, so a non-200 status outside that band falls through as a
success. -/
def attemptBody (ep : Nat → AttemptOutcome) (k : Nat) :
    Except PyErr (Nat × Option (List Int)) :=
  match ep k with
  | .raise e => .error e
  | .response s v => if 400 ≤ s ∧ s < 600 then .error (.httpError s) else .ok (s, v)

/-- Does the exception match `retry_if_exception_type(requests.HTTPError)`? -/
def PyErr.isHttpError : PyErr → Bool
  | .httpError _ => true
  | _ => false

/-- The `for attempt in Retrying(...)` loop of cell 7. After a failed
attempt tenacity first consults the retry predicate — an exception that
is not an `HTTPError` is re-raised as is — and then the stop condition —
once the attempt budget is exhausted it raises `RetryError` wrapping the
last attempt (the notebook leaves `reraise` at its default `False`).
`retryFrom ep k budget` runs up to `budget` further attempts starting at
call number `k` and returns the loop result together with the number of
calls made; the `budget = 0` case is never reached from `vectorize_image`. -/
def retryFrom (ep : Nat → AttemptOutcome) :
    Nat → Nat → Except PyErr (Nat × Option (List Int)) × Nat
  | _, 0 => (.error (.retryError .keyError), 0)
  | k, budget + 1 =>
    match attemptBody ep k with
    | .ok r => (.ok r, 1)
    | .error e =>
      if e.isHttpError then
        if budget = 0 then (.error (.retryError e), 1)
        else
          let p := retryFrom ep (k + 1) budget
          (p.1, p.2 + 1)
      else (.error e, 1)

/-- `stop_after_attempt(15)` in cell 7. -/
def maxAttempts : Nat := 15

/-- The `vector = response.json()["vector"]` line of cell 7, applied to
the result of the retry loop: a response whose `"vector"` field is
missing raises `KeyError`; an exception escaping the loop propagates
unchanged. -/
def extractVector : Except PyErr (Nat × Option (List Int)) → Except PyErr (List Int)
  | .ok (_, some v) => .ok v
  | .ok (_, none) => .error .keyError
  | .error e => .error e

/-- Cell 7's `vectorize_image`: run the retry loop, then extract the
`"vector"` field — a missing field is a `KeyError`, raised outside the
loop and hence never retried. Returns the Python result (vector, or the
raised exception) together with the number of endpoint calls made. -/
def vectorize_image (ep : Nat → AttemptOutcome) : Except PyErr (List Int) × Nat :=
  (extractVector (retryFrom ep 0 maxAttempts).1, (retryFrom ep 0 maxAttempts).2)

/-- One element of the input manifest `input.json`: a JSON object whose
`image_path` key may be missing or `null` (both modelled as `none`) or
hold a string. -/
structure InputItem where
  image_path : Option String
deriving DecidableEq

/-- One line of `output.jsonl` as written by cell 9: the parsed content of
`json.dumps({"id": ..., "image_vector": ..., "description": ...})`, with
`None` serialised as JSON `null` (`none` here). -/
structure OutputRecord where
  id : String
  image_vector : Option (List Int)
  description : String
deriving DecidableEq

/-- `os.path.basename` on POSIX: everything after the last `'/'`. -/
def basenameChars (l : List Char) : List Char :=
  (l.reverse.takeWhile (fun c => c ≠ '/')).reverse

/-- The stem of `os.path.splitext` applied to a basename: drop the suffix
introduced by the last `'.'`, unless everything before that dot consists
only of dots (Python treats `".bashrc"` as having no extension). -/
def splitextStemChars (b : List Char) : List Char :=
  let ext := b.reverse.takeWhile (fun c => c ≠ '.')
  if ext.length = b.length then b
  else
    let stem := (b.reverse.drop (ext.length + 1)).reverse
    if stem.all (fun c => c = '.') then b else stem

/-- `os.path.splitext(os.path.basename(p))[0]` from cell 9. -/
def fileStem (p : String) : String :=
  ⟨splitextStemChars (basenameChars p.data)⟩

/-- `os.path.join(a, b)` on POSIX for two components: an absolute `b`
(leading `'/'`) replaces `a`; otherwise the separator is inserted unless
`a` is empty or already ends with `'/'`. -/
def joinPath (a b : String) : String :=
  if b.data.head? = some '/' then b
  else if a = "" ∨ a.data.getLast? = some '/' then a ++ b
  else a ++ "/" ++ b

/-- `os.path.join('..', '..', 'data', 'images', 'apples')` from cell 9. -/
def apples_image_directory : String :=
  joinPath (joinPath (joinPath (joinPath ".." "..") "data") "images") "apples"

/-- The character `'0' + d` for a decimal digit `d`. -/
def decDigitChar (d : Nat) : Char := Char.ofNat (48 + d)

/-- Decimal digits of `n`, most significant first; `fuel ≥ n + 1` is
enough for the recursion to complete. -/
def decCharsAux : Nat → Nat → List Char
  | 0, _ => []
  | fuel + 1, n =>
    if n < 10 then [decDigitChar n]
    else decCharsAux fuel (n / 10) ++ [decDigitChar (n % 10)]

/-- Python `f'{idx}'` for a nonnegative integer: its decimal digits, with
no sign and no leading zeros. -/
def decimalRepr (n : Nat) : String := ⟨decCharsAux (n + 1) n⟩

/-- The result of one batch run of cell 9: the records written to
`output.jsonl`, in write order, and the report of failures — one
`(index, message)` pair per `print(f"Error processing image at index
{idx}: {e}")` line. -/
structure BatchResult where
  store : List OutputRecord
  report : List (Nat × String)
deriving DecidableEq

/-- Cell 9's `try: vector = vectorize_image(...) except Exception as e:`
block for the item at index `idx` with path `p`: the vector on success,
or a `None` vector together with the printed failure entry. The embedder
`embed` stands for `vectorize_image` applied to the joined path; its
error value is the exception's message `{e}`. -/
def embedResult (embed : String → Except String (List Int)) (idx : Nat)
    (p : String) : Option (List Int) × List (Nat × String) :=
  match embed (joinPath apples_image_directory p) with
  | .ok v => (some v, [])
  | .error e => (none, [(idx, e)])

/-- The `result` dict cell 9 builds for the item at index `idx` with path
`p`: `id` is `f'{idx}'`, `image_vector` is the (possibly downgraded)
embedding, `description` is the base filename with the extension
stripped. -/
def recordFor (embed : String → Except String (List Int)) (idx : Nat)
    (p : String) : OutputRecord :=
  { id := decimalRepr idx
    image_vector := (embedResult embed idx p).1
    description := fileStem p }

/-- The body of cell 9's loop for the item at index `idx`: skip the item
when `image_path` is falsy (`None` via `.get('image_path', None)`, or the
empty string); otherwise write `recordFor` and report the failure, if
any. -/
def processItem (embed : String → Except String (List Int)) (idx : Nat)
    (item : InputItem) : BatchResult :=
  match item.image_path with
  | none => ⟨[], []⟩
  | some p =>
    if p = "" then ⟨[], []⟩
    else ⟨[recordFor embed idx p], (embedResult embed idx p).2⟩

/-- Cell 9's `for idx, image_data in enumerate(images)` loop, starting
from index `idx`: records and report lines are emitted in manifest
order. -/
def runBatchFrom (embed : String → Except String (List Int)) :
    Nat → List InputItem → BatchResult
  | _, [] => ⟨[], []⟩
  | idx, item :: rest =>
    let r := processItem embed idx item
    let rs := runBatchFrom embed (idx + 1) rest
    ⟨r.store ++ rs.store, r.report ++ rs.report⟩

/-- A completed run of cell 9 over `manifest` (the parsed `input.json`). -/
def runBatch (embed : String → Except String (List Int))
    (manifest : List InputItem) : BatchResult :=
  runBatchFrom embed 0 manifest

/-- Python file open modes relevant to the store file. -/
inductive OpenMode where
  | write
  | append
deriving DecidableEq

/-- Contents of a file right after `open(path, mode)`: `'w'` truncates,
`'a'` would keep the previous contents. -/
def openContents (mode : OpenMode) (prev : List OutputRecord) : List OutputRecord :=
  match mode with
  | .write => []
  | .append => prev

/-- Cell 9 opens the store with `open(output_json_file, 'w')`. -/
def materializerOpenMode : OpenMode := OpenMode.write

/-- The contents of `output.jsonl` after a completed batch run that
started with `prev` already on disk: the file is first opened in the
materializer's mode, then every record of the run is appended in order. -/
def storeFileAfterRun (prev : List OutputRecord)
    (embed : String → Except String (List Int))
    (manifest : List InputItem) : List OutputRecord :=
  openContents materializerOpenMode prev ++ (runBatch embed manifest).store

/-- Specification helper: the manifest indices (counting from `idx`) of
the items cell 9 actually processes, i.e. those whose `image_path` is
truthy. -/
def survivors : Nat → List InputItem → List Nat
  | _, [] => []
  | idx, item :: rest =>
    match item.image_path with
    | none => survivors (idx + 1) rest
    | some p =>
      if p = "" then survivors (idx + 1) rest
      else idx :: survivors (idx + 1) rest

/-- Specification helper: the numeric value of a decimal digit string,
used to show `decimalRepr` is injective. -/
def decValAux (l : List Char) : Nat :=
  l.foldl (fun a c => 10 * a + (c.toNat - 48)) 0

/-- Python `str.strip()`: remove whitespace from both ends. -/
def pyStrip (s : String) : String :=
  ⟨((s.data.dropWhile Char.isWhitespace).reverse.dropWhile Char.isWhitespace).reverse⟩

/-- Cell 13's read loop: for each line of the store file,
`json.loads(line.strip())`; a line the parser rejects raises
`json.JSONDecodeError`, which aborts the whole load and surfaces the
offending (stripped) line; otherwise the parsed records accumulate in
file order. `parse` stands for `json.loads` specialised to the record
schema. -/
def loadStore (parse : String → Option OutputRecord) :
    List String → Except String (List OutputRecord)
  | [] => .ok []
  | line :: rest =>
    match parse (pyStrip line) with
    | none => .error (pyStrip line)
    | some r =>
      match loadStore parse rest with
      | .ok rs => .ok (r :: rs)
      | .error e => .error e

/-- One entry of the `upload_documents` result: `result.key` and
`result.status_code` as printed by cell 13. -/
structure PublishOutcome where
  key : String
  statusCode : Nat
deriving DecidableEq

/-- Cell 13 passes the loaded list to `search_client.upload_documents`
unchanged — no record is filtered out, whatever its `image_vector` — and
the external service (modelled by `svc`) answers one status code per
uploaded document, keyed by the record's `id`. -/
def publish (svc : OutputRecord → Nat) (records : List OutputRecord) :
    List PublishOutcome :=
  records.map (fun r => ⟨r.id, svc r⟩)

/-- Cell 13 end to end: load `output.jsonl`, then upload every loaded
record. -/
def publishRun (parse : String → Option OutputRecord) (svc : OutputRecord → Nat)
    (lines : List String) : Except String (List PublishOutcome) :=
  match loadStore parse lines with
  | .ok rs => .ok (publish svc rs)
  | .error e => .error e

/-! Concrete mock endpoints, embedders, manifests and stores used to
instantiate the properties below. -/

/-- A mock endpoint whose every response is HTTP 400 (an unrecoverable
client error). -/
def always400 : Nat → AttemptOutcome := fun _ => .response 400 none

/-- A mock endpoint whose every response is HTTP 503 (a transient server
error). -/
def always503 : Nat → AttemptOutcome := fun _ => .response 503 none

/-- A mock endpoint whose attempt body raises a non-HTTP exception (for
example, the input file cannot be opened). -/
def raiseOther : Nat → AttemptOutcome := fun _ => .raise (.otherError "io")

/-- A mock endpoint that fails with HTTP 503 on the first three calls and
then answers 200 with a vector. -/
def flaky : Nat → AttemptOutcome := fun k =>
  if k < 3 then .response 503 none else .response 200 (some [2, 5])

/-- A mock embedder that succeeds on every path. -/
def embedAllOk : String → Except String (List Int) := fun _ => .ok [1]

/-- A mock embedder that raises exactly on `c.jpg`. -/
def embedFailC : String → Except String (List Int) := fun p =>
  if p = joinPath apples_image_directory "c.jpg" then .error "boom" else .ok [9]

/-- A five-item manifest whose every item has a truthy `image_path`. -/
def manifest5 : List InputItem :=
  [⟨some "a.jpg"⟩, ⟨some "b.jpg"⟩, ⟨some "c.jpg"⟩, ⟨some "d.jpg"⟩, ⟨some "e.jpg"⟩]

/-- The mock embedder of the end-to-end scenario: `[1, 0]` for `a.jpg`,
`[0, 1]` for `b.jpg`. -/
def mockEmbed : String → Except String (List Int) := fun p =>
  if p = joinPath apples_image_directory "a.jpg" then .ok [1, 0]
  else if p = joinPath apples_image_directory "b.jpg" then .ok [0, 1]
  else .error "unknown"

/-- A mock line parser that accepts only the line `"good"`. -/
def parseOnlyGood : String → Option OutputRecord := fun s =>
  if s = "good" then some ⟨"0", none, "x"⟩ else none

/-- A mock line parser for a two-line store whose first record has an
absent vector. -/
def parseC8 : String → Option OutputRecord := fun s =>
  if s = "r0" then some ⟨"0", none, "a"⟩
  else if s = "r1" then some ⟨"1", some [1], "b"⟩ else none

/-- The records `parseC8` yields for the store `["r0", "r1"]`. -/
def recsC8 : List OutputRecord := [⟨"0", none, "a"⟩, ⟨"1", some [1], "b"⟩]

/-- A mock upload service that reports 200 for every document. -/
def svc200 : OutputRecord → Nat := fun _ => 200

/-! Helper lemmas. -/

lemma decDigitChar_toNat {d : Nat} (h : d < 10) : (decDigitChar d).toNat = 48 + d := by
  interval_cases d <;> decide

lemma decValAux_append_digit (l : List Char) (c : Char) :
    decValAux (l ++ [c]) = 10 * decValAux l + (c.toNat - 48) := by
  simp [decValAux, List.foldl_append]

lemma decValAux_decCharsAux : ∀ fuel n, n < fuel → decValAux (decCharsAux fuel n) = n := by
  intro fuel
  induction fuel with
  | zero => intro n h; omega
  | succ f ih =>
    intro n h
    by_cases h10 : n < 10
    · simp [decCharsAux, h10, decValAux, decDigitChar_toNat h10]
    · have hdiv : n / 10 < n := Nat.div_lt_self (by omega) (by omega)
      have hf : n / 10 < f := by omega
      simp only [decCharsAux, if_neg h10, decValAux_append_digit, ih _ hf,
        decDigitChar_toNat (Nat.mod_lt n (by omega))]
      have h48 : 48 + n % 10 - 48 = n % 10 := by omega
      rw [h48]
      omega

lemma decimalRepr_injective : Function.Injective decimalRepr := by
  intro m n h
  have hd : decCharsAux (m + 1) m = decCharsAux (n + 1) n := congrArg String.data h
  have := decValAux_decCharsAux (m + 1) m (Nat.lt_succ_self m)
  rw [hd, decValAux_decCharsAux (n + 1) n (Nat.lt_succ_self n)] at this
  omega

lemma retryFrom_ok_step (ep : Nat → AttemptOutcome) {k b : Nat}
    {r : Nat × Option (List Int)} (h : attemptBody ep k = .ok r) :
    retryFrom ep k (b + 1) = (.ok r, 1) := by
  rw [retryFrom, h]

lemma retryFrom_nonhttp_step (ep : Nat → AttemptOutcome) {k b : Nat} {e : PyErr}
    (h : attemptBody ep k = .error e) (he : e.isHttpError = false) :
    retryFrom ep k (b + 1) = (.error e, 1) := by
  rw [retryFrom, h]
  simp [he]

lemma retryFrom_http_step (ep : Nat → AttemptOutcome) {k b : Nat} {e : PyErr}
    (h : attemptBody ep k = .error e) (he : e.isHttpError = true) (hb : b ≠ 0) :
    retryFrom ep k (b + 1) = ((retryFrom ep (k + 1) b).1, (retryFrom ep (k + 1) b).2 + 1) := by
  rw [retryFrom, h]
  simp [he, hb]

lemma vectorize_image_eq (ep : Nat → AttemptOutcome)
    {res : Except PyErr (Nat × Option (List Int))} {c : Nat}
    (h : retryFrom ep 0 maxAttempts = (res, c)) :
    vectorize_image ep = (extractVector res, c) := by
  unfold vectorize_image
  rw [h]

lemma retryFrom_calls_pos (ep : Nat → AttemptOutcome) (k budget : Nat)
    (h : 1 ≤ budget) : 1 ≤ (retryFrom ep k budget).2 := by
  match budget, h with
  | b + 1, _ =>
    simp only [retryFrom]
    cases attemptBody ep k with
    | ok r => simp
    | error e =>
      by_cases he : e.isHttpError <;> by_cases hb : b = 0 <;> simp [he, hb]

lemma retryFrom_ok (ep : Nat → AttemptOutcome) (r : Nat × Option (List Int)) :
    ∀ (j k budget : Nat), j < budget →
    (∀ i, i < j → ∃ s, attemptBody ep (k + i) = .error (.httpError s)) →
    attemptBody ep (k + j) = .ok r →
    retryFrom ep k budget = (.ok r, j + 1) := by
  intro j
  induction j with
  | zero =>
    intro k budget hb _ hsucc
    match budget, hb with
    | b + 1, _ => simp only [retryFrom]; rw [Nat.add_zero] at hsucc; rw [hsucc]
  | succ j ih =>
    intro k budget hb hfail hsucc
    match budget, hb with
    | b + 1, hb =>
      obtain ⟨s, hs⟩ := hfail 0 (Nat.succ_pos j)
      rw [Nat.add_zero] at hs
      have hbne : b ≠ 0 := by omega
      have hrec := ih (k + 1) b (by omega)
        (fun i hi => by
          have := hfail (i + 1) (by omega)
          rwa [show k + (i + 1) = k + 1 + i by omega] at this)
        (by rwa [show k + 1 + j = k + (j + 1) by omega])
      simp only [retryFrom, hs, PyErr.isHttpError, if_true, if_neg hbne, hrec]

lemma retryFrom_exhaust (ep : Nat → AttemptOutcome) :
    ∀ (budget k : Nat), 1 ≤ budget →
    (∀ i, i < budget → ∃ s, attemptBody ep (k + i) = .error (.httpError s)) →
    ∃ s, attemptBody ep (k + (budget - 1)) = .error (.httpError s) ∧
      retryFrom ep k budget = (.error (.retryError (.httpError s)), budget) := by
  intro budget
  induction budget with
  | zero => intro k h; omega
  | succ b ih =>
    intro k _ hfail
    by_cases hb : b = 0
    · subst hb
      obtain ⟨s, hs⟩ := hfail 0 (by omega)
      rw [Nat.add_zero] at hs
      refine ⟨s, by simpa using hs, ?_⟩
      simp [retryFrom, hs, PyErr.isHttpError]
    · obtain ⟨s0, hs0⟩ := hfail 0 (by omega)
      rw [Nat.add_zero] at hs0
      obtain ⟨s, hs, hrec⟩ := ih (k + 1) (by omega)
        (fun i hi => by
          have := hfail (i + 1) (by omega)
          rwa [show k + (i + 1) = k + 1 + i by omega] at this)
      refine ⟨s, by rwa [show k + (b + 1 - 1) = k + 1 + (b - 1) by omega], ?_⟩
      simp [retryFrom, hs0, PyErr.isHttpError, if_neg hb, hrec]

lemma runBatchFrom_append (embed : String → Except String (List Int)) :
    ∀ (xs ys : List InputItem) (idx : Nat),
    runBatchFrom embed idx (xs ++ ys) =
      ⟨(runBatchFrom embed idx xs).store ++ (runBatchFrom embed (idx + xs.length) ys).store,
       (runBatchFrom embed idx xs).report ++ (runBatchFrom embed (idx + xs.length) ys).report⟩ := by
  intro xs
  induction xs with
  | nil => intro ys idx; simp [runBatchFrom]
  | cons x xs ih =>
    intro ys idx
    simp only [List.cons_append, runBatchFrom, List.append_eq, ih ys (idx + 1),
      List.length_cons, List.append_assoc,
      show idx + 1 + xs.length = idx + (xs.length + 1) from by omega]

lemma processItem_valid (embed : String → Except String (List Int)) (idx : Nat)
    (item : InputItem) (p : String) (hp : item.image_path = some p) (hne : p ≠ "") :
    processItem embed idx item = ⟨[recordFor embed idx p], (embedResult embed idx p).2⟩ := by
  simp [processItem, hp, hne]

lemma runBatchFrom_valid (embed : String → Except String (List Int)) :
    ∀ (items : List InputItem) (idx : Nat),
    (∀ item ∈ items, ∃ p, item.image_path = some p ∧ p ≠ "") →
    (runBatchFrom embed idx items).store.length = items.length ∧
    (∀ (i : Nat) (item : InputItem) (p : String), items.get? i = some item →
      item.image_path = some p →
      (runBatchFrom embed idx items).store.get? i = some (recordFor embed (idx + i) p)) := by
  intro items
  induction items with
  | nil => intro idx _; simp [runBatchFrom]
  | cons item rest ih =>
    intro idx h
    obtain ⟨p, hp, hne⟩ := h item (List.mem_cons_self item rest)
    obtain ⟨ihlen, ihget⟩ := ih (idx + 1) (fun it hit => h it (List.mem_cons_of_mem item hit))
    rw [runBatchFrom, processItem_valid embed idx item p hp hne]
    refine ⟨by simpa using ihlen, ?_⟩
    intro i it q hget hq
    cases i with
    | zero =>
      rw [List.get?_cons_zero] at hget
      cases hget
      rw [hp] at hq
      cases hq
      simp
    | succ i =>
      rw [List.get?_cons_succ] at hget
      simp only [List.singleton_append, List.get?_cons_succ]
      rw [ihget i it q hget hq, show idx + 1 + i = idx + (i + 1) by omega]

lemma runBatchFrom_store_mem (embed : String → Except String (List Int)) :
    ∀ (items : List InputItem) (idx : Nat) (r : OutputRecord),
    r ∈ (runBatchFrom embed idx items).store →
    ∃ (j : Nat) (item : InputItem) (p : String), items.get? j = some item ∧
      item.image_path = some p ∧ p ≠ "" ∧ r = recordFor embed (idx + j) p := by
  intro items
  induction items with
  | nil => intro idx r hr; simp [runBatchFrom] at hr
  | cons item rest ih =>
    intro idx r hr
    rw [runBatchFrom] at hr
    rcases List.mem_append.1 hr with hr | hr
    · match hitem : item.image_path with
      | none => rw [processItem, hitem] at hr; simp at hr
      | some p =>
        by_cases hne : p = ""
        · rw [processItem, hitem] at hr; simp [hne] at hr
        · rw [processItem_valid embed idx item p hitem hne] at hr
          have : r = recordFor embed idx p := by simpa using hr
          exact ⟨0, item, p, rfl, hitem, hne, by simpa using this⟩
    · obtain ⟨j, it, p, hget, hp, hne, hrec⟩ := ih (idx + 1) r hr
      exact ⟨j + 1, it, p, by simpa using hget, hp, hne, by
        rwa [show idx + 1 + j = idx + (j + 1) by omega] at hrec⟩

lemma runBatchFrom_store_ids (embed : String → Except String (List Int)) :
    ∀ (items : List InputItem) (idx : Nat),
    (runBatchFrom embed idx items).store.map OutputRecord.id =
      (survivors idx items).map decimalRepr := by
  intro items
  induction items with
  | nil => intro idx; simp [runBatchFrom, survivors]
  | cons item rest ih =>
    intro idx
    rw [runBatchFrom, survivors]
    match hitem : item.image_path with
    | none => simp [processItem, hitem, ih (idx + 1)]
    | some p =>
      by_cases hne : p = ""
      · simp [processItem, hitem, hne, ih (idx + 1)]
      · simp [processItem, hitem, hne, ih (idx + 1), recordFor]

lemma survivors_le : ∀ (items : List InputItem) (idx n : Nat),
    n ∈ survivors idx items → idx ≤ n := by
  intro items
  induction items with
  | nil => intro idx n h; simp [survivors] at h
  | cons item rest ih =>
    intro idx n h
    match hitem : item.image_path with
    | none =>
      simp only [survivors, hitem] at h
      exact le_of_lt (lt_of_lt_of_le (Nat.lt_succ_self idx) (ih (idx + 1) n h))
    | some p =>
      simp only [survivors, hitem] at h
      by_cases hne : p = ""
      · rw [if_pos hne] at h
        exact le_of_lt (lt_of_lt_of_le (Nat.lt_succ_self idx) (ih (idx + 1) n h))
      · rw [if_neg hne] at h
        rcases List.mem_cons.1 h with h | h
        · omega
        · exact le_of_lt (lt_of_lt_of_le (Nat.lt_succ_self idx) (ih (idx + 1) n h))

lemma survivors_pairwise : ∀ (items : List InputItem) (idx : Nat),
    (survivors idx items).Pairwise (· < ·) := by
  intro items
  induction items with
  | nil => intro idx; simp [survivors]
  | cons item rest ih =>
    intro idx
    match hitem : item.image_path with
    | none =>
      simp only [survivors, hitem]
      exact ih (idx + 1)
    | some p =>
      simp only [survivors, hitem]
      by_cases hne : p = ""
      · rw [if_pos hne]; exact ih (idx + 1)
      · rw [if_neg hne]
        exact List.Pairwise.cons
          (fun n hn => lt_of_lt_of_le (Nat.lt_succ_self idx) (survivors_le rest (idx + 1) n hn))
          (ih (idx + 1))

/-! Claim theorems. -/

/-- C3, counterexample: the claim says an unrecoverable 4xx response is
surfaced to the caller without any retry, i.e. after a single endpoint
call. On an endpoint that always answers HTTP 400 the code makes all 15
calls and surfaces a `RetryError`, because the retry predicate
`retry_if_exception_type(requests.HTTPError)` matches every non-2xx
status, 4xx included. -/
theorem C3_counterexample :
    vectorize_image always400 = (.error (.retryError (.httpError 400)), 15) ∧
    (15 : Nat) ≠ 1 := ⟨rfl, by decide⟩

/-- C3 (amended): the Embedding Client retries exactly the attempts that
fail with `requests.HTTPError` — any response status in `[400, 600)`,
4xx and 5xx alike — and makes a single endpoint call otherwise: a
non-HTTP exception from the attempt body (e.g. malformed input) is
surfaced to the caller as is without retry, and a response whose
`"vector"` field is missing becomes a `KeyError` after one call, outside
the retry loop. -/
theorem C3_retry_predicate (ep : Nat → AttemptOutcome) :
    ((vectorize_image ep).2 = 1 ↔ ¬ ∃ s, attemptBody ep 0 = .error (.httpError s)) ∧
    (∀ e, attemptBody ep 0 = .error e → e.isHttpError = false →
      vectorize_image ep = (.error e, 1)) ∧
    (∀ s, attemptBody ep 0 = .ok (s, none) →
      vectorize_image ep = (.error .keyError, 1)) := by
  have h15 : maxAttempts = 14 + 1 := rfl
  rcases hab : attemptBody ep 0 with e | r
  · by_cases he : e.isHttpError
    · have hs : ∃ s, e = .httpError s := by
        cases e <;> simp [PyErr.isHttpError] at he ⊢
      obtain ⟨s, rfl⟩ := hs
      have hpos := retryFrom_calls_pos ep 1 14 (by omega)
      have hstep : retryFrom ep 0 maxAttempts =
          ((retryFrom ep 1 14).1, (retryFrom ep 1 14).2 + 1) := by
        rw [h15]
        exact retryFrom_http_step ep hab he (by omega)
      have hcalls : (vectorize_image ep).2 = (retryFrom ep 1 14).2 + 1 := by
        rw [vectorize_image_eq ep hstep]
      refine ⟨?_, ?_, ?_⟩
      · rw [hcalls]
        constructor
        · intro h
          exact absurd h (by omega)
        · intro h
          exact (h ⟨s, rfl⟩).elim
      · intro e2 h2 hf
        injection h2 with h3
        subst h3
        simp [PyErr.isHttpError] at hf
      · intro s2 h2
        simp at h2
    · have he2 : e.isHttpError = false := by simpa using he
      have hstep : retryFrom ep 0 maxAttempts = (.error e, 1) := by
        rw [h15]
        exact retryFrom_nonhttp_step ep hab he2
      have hres : vectorize_image ep = (.error e, 1) := by
        rw [vectorize_image_eq ep hstep]
        rfl
      refine ⟨?_, ?_, ?_⟩
      · refine iff_of_true (by rw [hres]) ?_
        rintro ⟨s, hs⟩
        injection hs with h3
        subst h3
        simp [PyErr.isHttpError] at he
      · intro e2 h2 _
        injection h2 with h3
        subst h3
        exact hres
      · intro s2 h2
        simp at h2
  · rcases r with ⟨st, v⟩
    have hstep : retryFrom ep 0 maxAttempts = (.ok (st, v), 1) := by
      rw [h15]
      exact retryFrom_ok_step ep hab
    have hres : vectorize_image ep = (extractVector (.ok (st, v)), 1) :=
      vectorize_image_eq ep hstep
    refine ⟨?_, ?_, ?_⟩
    · refine iff_of_true (by rw [hres]) ?_
      rintro ⟨s, hs⟩
      simp at hs
    · intro e2 h2 _
      simp at h2
    · intro s2 h2
      simp only [Except.ok.injEq, Prod.mk.injEq] at h2
      obtain ⟨h4, h5⟩ := h2
      subst h5
      simpa [extractVector] using hres

/-- C3, witness: a non-HTTP exception on the first call (an unreadable
input file) is surfaced as is after exactly one endpoint call. -/
theorem C3_witness : vectorize_image raiseOther = (.error (.otherError "io"), 1) :=
  (C3_retry_predicate raiseOther).2.1 (.otherError "io") rfl rfl

/-- C4: if the endpoint fails with a retryable (HTTP) error on exactly
the first `k` calls, `k < 15`, and the `k`-th call returns a response
carrying a vector, then `vectorize_image` returns that vector and the
endpoint is called exactly `k + 1` times. -/
theorem C4_retry_law (ep : Nat → AttemptOutcome) (k st : Nat) (v : List Int)
    (hk : k < maxAttempts)
    (hfail : ∀ i, i < k → ∃ s, attemptBody ep i = .error (.httpError s))
    (hsucc : attemptBody ep k = .ok (st, some v)) :
    vectorize_image ep = (.ok v, k + 1) := by
  have h := retryFrom_ok ep (st, some v) k 0 maxAttempts hk
    (fun i hi => by simpa using hfail i hi) (by simpa using hsucc)
  rw [vectorize_image_eq ep h]
  rfl

/-- C4, witness: three transient failures then a success yields the
successful vector after exactly four calls. -/
theorem C4_witness : vectorize_image flaky = (.ok [2, 5], 4) :=
  C4_retry_law flaky 3 200 [2, 5] (by decide)
    (fun i hi => ⟨503, by interval_cases i <;> rfl⟩) rfl

/-- C5, counterexample: the claim says the error surfaced after
exhausting all attempts is the last underlying endpoint error. On an
endpoint that always answers HTTP 503 the code does stop after 15
attempts, but it surfaces `tenacity.RetryError` wrapping the last
attempt — not the underlying `HTTPError` itself, since `Retrying` is
used with its default `reraise=False`. -/
theorem C5_counterexample :
    vectorize_image always503 = (.error (.retryError (.httpError 503)), 15) ∧
    PyErr.retryError (.httpError 503) ≠ PyErr.httpError 503 := ⟨rfl, by decide⟩

/-- C5 (amended): if every call fails with a retryable (HTTP) error,
`vectorize_image` raises after exactly `maxAttempts = 15` endpoint
calls, and the surfaced error is a `RetryError` wrapping the last
underlying endpoint error. -/
theorem C5_exhaustion (ep : Nat → AttemptOutcome)
    (h : ∀ i, i < maxAttempts → ∃ s, attemptBody ep i = .error (.httpError s)) :
    (vectorize_image ep).2 = maxAttempts ∧
    ∀ s, attemptBody ep (maxAttempts - 1) = .error (.httpError s) →
      (vectorize_image ep).1 = .error (.retryError (.httpError s)) := by
  obtain ⟨s0, hs0, hr⟩ := retryFrom_exhaust ep maxAttempts 0 (by decide)
    (fun i hi => by simpa using h i hi)
  rw [Nat.zero_add] at hs0
  constructor
  · rw [vectorize_image_eq ep hr]
  · intro s hs
    rw [hs0] at hs
    cases hs
    rw [vectorize_image_eq ep hr]
    rfl

/-- C5, witness: an endpoint that always answers HTTP 503 exhausts the
15 attempts and surfaces `RetryError` around the last 503. -/
theorem C5_witness :
    (vectorize_image always503).2 = maxAttempts ∧
    (vectorize_image always503).1 = .error (.retryError (.httpError 503)) :=
  ⟨(C5_exhaustion always503 (fun _ _ => ⟨503, rfl⟩)).1,
   (C5_exhaustion always503 (fun _ _ => ⟨503, rfl⟩)).2 503 rfl⟩

/-- C1, counterexample: the claim promises exactly N records for every
manifest of size N, but a manifest whose single item has no `image_path`
key completes the batch with an empty store — the `if image_path:` guard
of cell 9 silently skips the item. -/
theorem C1_counterexample :
    (runBatch embedAllOk [{ image_path := none }]).store.length = 0 ∧
    [InputItem.mk none].length = 1 := by decide

/-- C1 (amended): for every manifest of size N in which every item has a
present, non-empty `image_path`, a completed batch run writes exactly N
records, one per item, in manifest order — the i-th store record is the
record built for the i-th manifest item — regardless of how many
individual embedding calls fail. -/
theorem C1_batch_shape (embed : String → Except String (List Int))
    (manifest : List InputItem)
    (h : ∀ item ∈ manifest, ∃ p, item.image_path = some p ∧ p ≠ "") :
    (runBatch embed manifest).store.length = manifest.length ∧
    ∀ (i : Nat) (item : InputItem) (p : String), manifest.get? i = some item →
      item.image_path = some p →
      (runBatch embed manifest).store.get? i = some (recordFor embed i p) := by
  obtain ⟨hlen, hget⟩ := runBatchFrom_valid embed manifest 0 h
  exact ⟨hlen, fun i it p h1 h2 => by simpa using hget i it p h1 h2⟩

/-- C1, witness: the five-item manifest, with `c.jpg` failing, still
yields five records and keeps record 2 in position 2. -/
theorem C1_witness :
    (runBatch embedFailC manifest5).store.length = manifest5.length ∧
    (runBatch embedFailC manifest5).store.get? 2 = some (recordFor embedFailC 2 "c.jpg") :=
  ⟨(C1_batch_shape embedFailC manifest5
      (by intro it hit; fin_cases hit <;> exact ⟨_, rfl, by decide⟩)).1,
   (C1_batch_shape embedFailC manifest5
      (by intro it hit; fin_cases hit <;> exact ⟨_, rfl, by decide⟩)).2
      2 ⟨some "c.jpg"⟩ "c.jpg" rfl rfl⟩

/-- C2: failure isolation. If the item at position `pre.length` of the
manifest has a truthy path `p` and its embedding call raises (any error,
with message `msg`), the batch still writes that item's record with an
absent vector in its manifest position, records `(index, message)` in
the report, and processes the remaining items exactly as it would have —
the surrounding items' records and report entries are untouched. -/
theorem C2_failure_isolation (embed : String → Except String (List Int))
    (pre post : List InputItem) (item : InputItem) (p msg : String)
    (hp : item.image_path = some p) (hne : p ≠ "")
    (hfail : embed (joinPath apples_image_directory p) = .error msg) :
    (runBatch embed (pre ++ item :: post)).store =
      (runBatchFrom embed 0 pre).store ++
        { id := decimalRepr pre.length, image_vector := none, description := fileStem p } ::
        (runBatchFrom embed (pre.length + 1) post).store ∧
    (runBatch embed (pre ++ item :: post)).report =
      (runBatchFrom embed 0 pre).report ++
        (pre.length, msg) :: (runBatchFrom embed (pre.length + 1) post).report := by
  have hitem : processItem embed pre.length item =
      ⟨[{ id := decimalRepr pre.length, image_vector := none, description := fileStem p }],
       [(pre.length, msg)]⟩ := by
    rw [processItem_valid embed pre.length item p hp hne]
    simp [recordFor, embedResult, hfail]
  rw [runBatch, runBatchFrom_append]
  rw [show (0 : Nat) + pre.length = pre.length from by omega]
  constructor <;> simp [runBatchFrom, hitem]

/-- C2, witness: in the five-item manifest with item 2 (`c.jpg`) failing,
the store has 5 records, record 2 has an absent vector, and the report
names index 2 with the message. -/
theorem C2_witness :
    ((runBatch embedFailC manifest5).store =
      (runBatchFrom embedFailC 0 [⟨some "a.jpg"⟩, ⟨some "b.jpg"⟩]).store ++
        { id := decimalRepr 2, image_vector := none, description := fileStem "c.jpg" } ::
        (runBatchFrom embedFailC 3 [⟨some "d.jpg"⟩, ⟨some "e.jpg"⟩]).store) ∧
    (runBatch embedFailC manifest5).store.length = 5 ∧
    (runBatch embedFailC manifest5).store.get? 2 =
      some { id := "2", image_vector := none, description := "c" } ∧
    (runBatch embedFailC manifest5).report = [(2, "boom")] :=
  ⟨(C2_failure_isolation embedFailC [⟨some "a.jpg"⟩, ⟨some "b.jpg"⟩]
      [⟨some "d.jpg"⟩, ⟨some "e.jpg"⟩] ⟨some "c.jpg"⟩ "c.jpg" "boom"
      rfl (by decide) rfl).1,
   by decide, by decide, by decide⟩

/-- C6: end-to-end record shape. The two-item manifest with the mock
embedder produces exactly the records `{"id": "0", "image_vector":
[1, 0], "description": "a"}` and `{"id": "1", "image_vector": [0, 1],
"description": "b"}`; and in general every record the batch writes has
as its `id` the decimal string of its item's manifest index and as its
`description` the item's base filename with the extension stripped. -/
theorem C6_record_shape :
    ((runBatch mockEmbed [⟨some "a.jpg"⟩, ⟨some "b.jpg"⟩]).store =
      [{ id := "0", image_vector := some [1, 0], description := "a" },
       { id := "1", image_vector := some [0, 1], description := "b" }]) ∧
    (∀ (embed : String → Except String (List Int)) (manifest : List InputItem)
      (r : OutputRecord), r ∈ (runBatch embed manifest).store →
      ∃ (i : Nat) (item : InputItem) (p : String), manifest.get? i = some item ∧
        item.image_path = some p ∧ r.id = decimalRepr i ∧
        r.description = fileStem p) := by
  refine ⟨by decide, ?_⟩
  intro embed manifest r hr
  obtain ⟨j, it, p, hget, hp, hne, hrec⟩ := runBatchFrom_store_mem embed manifest 0 r hr
  refine ⟨j, it, p, hget, hp, ?_, ?_⟩ <;> rw [hrec] <;> simp [recordFor]

/-- C6, witness: the first store record of the end-to-end scenario indeed
carries the decimal id and stripped-extension description of a manifest
item. -/
theorem C6_witness :
    ∃ (i : Nat) (item : InputItem) (p : String),
      ([⟨some "a.jpg"⟩, ⟨some "b.jpg"⟩] : List InputItem).get? i = some item ∧
      item.image_path = some p ∧
      ({ id := "0", image_vector := some [1, 0], description := "a" } : OutputRecord).id =
        decimalRepr i ∧
      ({ id := "0", image_vector := some [1, 0], description := "a" } : OutputRecord).description =
        fileStem p :=
  C6_record_shape.2 mockEmbed [⟨some "a.jpg"⟩, ⟨some "b.jpg"⟩]
    { id := "0", image_vector := some [1, 0], description := "a" } (by decide)

/-- C7: when the store file contains a malformed line, loading aborts at
the first malformed line — the parse error is raised to the caller and no
records are returned — instead of skipping the line and continuing. -/
theorem C7_loader_aborts (parse : String → Option OutputRecord)
    (pre : List String) (bad : String) (rest : List String)
    (hpre : ∀ l ∈ pre, (parse (pyStrip l)).isSome)
    (hbad : parse (pyStrip bad) = none) :
    loadStore parse (pre ++ bad :: rest) = .error (pyStrip bad) := by
  induction pre with
  | nil => simp [loadStore, hbad]
  | cons l pre ih =>
    have hl := hpre l (List.mem_cons_self l pre)
    obtain ⟨r, hr⟩ := Option.isSome_iff_exists.1 hl
    rw [List.cons_append, loadStore, hr,
      ih (fun x hx => hpre x (List.mem_cons_of_mem l hx))]

/-- C7, witness: the three-line store whose middle line is unparseable is
rejected whole with that line as the error. -/
theorem C7_witness :
    loadStore parseOnlyGood (["good"] ++ "bad" :: ["good"]) = .error (pyStrip "bad") :=
  C7_loader_aborts parseOnlyGood ["good"] "bad" ["good"] (by decide) (by decide)

/-- C8: the Index Publisher uploads every loaded record — one outcome per
record, keyed in order by the records' ids — and a record whose vector is
absent is still among the published outcomes: nothing is filtered out
before upload because its embedding failed. -/
theorem C8_publish_all (parse : String → Option OutputRecord)
    (svc : OutputRecord → Nat) (lines : List String) (rs : List OutputRecord)
    (h : loadStore parse lines = .ok rs) :
    publishRun parse svc lines = .ok (publish svc rs) ∧
    (publish svc rs).map PublishOutcome.key = rs.map OutputRecord.id ∧
    ∀ r ∈ rs, r.image_vector = none →
      ({ key := r.id, statusCode := svc r } : PublishOutcome) ∈ publish svc rs := by
  refine ⟨by simp [publishRun, h], ?_, ?_⟩
  · simp [publish, List.map_map]
  · intro r hr _
    exact List.mem_map.2 ⟨r, hr, rfl⟩

/-- C8, witness: in the two-record store whose first record has an absent
vector, that record is still published with its id. -/
theorem C8_witness :
    publishRun parseC8 svc200 ["r0", "r1"] = .ok (publish svc200 recsC8) ∧
    ({ key := "0", statusCode := 200 } : PublishOutcome) ∈ publish svc200 recsC8 :=
  ⟨(C8_publish_all parseC8 svc200 ["r0", "r1"] recsC8 rfl).1,
   (C8_publish_all parseC8 svc200 ["r0", "r1"] recsC8 rfl).2.2
     { id := "0", image_vector := none, description := "a" } (by decide) rfl⟩

/-- C9 (implicit behavior): an item whose `image_path` is missing, null
or empty is silently dropped — the batch writes no record for it and
records no failure, and the remaining items are processed with their
original manifest indices — and the ids of the surviving records are
pairwise distinct (each is the decimal string of its original index),
though possibly non-contiguous. -/
theorem C9_skip_and_unique :
    (∀ (embed : String → Except String (List Int)) (pre post : List InputItem)
      (item : InputItem), item.image_path = none ∨ item.image_path = some "" →
      runBatch embed (pre ++ item :: post) =
        ⟨(runBatchFrom embed 0 pre).store ++ (runBatchFrom embed (pre.length + 1) post).store,
         (runBatchFrom embed 0 pre).report ++ (runBatchFrom embed (pre.length + 1) post).report⟩) ∧
    (∀ (embed : String → Except String (List Int)) (manifest : List InputItem),
      ((runBatch embed manifest).store.map OutputRecord.id).Nodup) := by
  constructor
  · intro embed pre post item h
    have hitem : processItem embed pre.length item = ⟨[], []⟩ := by
      rcases h with h | h <;> simp [processItem, h]
    rw [runBatch, runBatchFrom_append]
    rw [show (0 : Nat) + pre.length = pre.length from by omega]
    simp [runBatchFrom, hitem]
  · intro embed manifest
    rw [runBatch, runBatchFrom_store_ids]
    exact List.Nodup.map decimalRepr_injective
      ((survivors_pairwise manifest 0).imp fun h => Nat.ne_of_lt h)

/-- C9, witness: skipping the middle (pathless) item of a three-item
manifest leaves two records whose ids `"0"` and `"2"` keep their original
manifest indices — fewer records than items, unique but non-contiguous
ids, and an empty failure report. -/
theorem C9_witness :
    (runBatch embedAllOk ([⟨some "a.jpg"⟩] ++ ⟨none⟩ :: [⟨some "c.png"⟩]) =
      ⟨(runBatchFrom embedAllOk 0 [⟨some "a.jpg"⟩]).store ++
         (runBatchFrom embedAllOk 2 [⟨some "c.png"⟩]).store,
       (runBatchFrom embedAllOk 0 [⟨some "a.jpg"⟩]).report ++
         (runBatchFrom embedAllOk 2 [⟨some "c.png"⟩]).report⟩) ∧
    (runBatch embedAllOk [⟨some "a.jpg"⟩, ⟨none⟩, ⟨some "c.png"⟩]).store.map
      OutputRecord.id = ["0", "2"] ∧
    (runBatch embedAllOk [⟨some "a.jpg"⟩, ⟨none⟩, ⟨some "c.png"⟩]).store.length = 2 ∧
    (runBatch embedAllOk [⟨some "a.jpg"⟩, ⟨none⟩, ⟨some "c.png"⟩]).report = [] :=
  ⟨C9_skip_and_unique.1 embedAllOk [⟨some "a.jpg"⟩] [⟨some "c.png"⟩] ⟨none⟩ (Or.inl rfl),
   by decide, by decide, by decide⟩

/-- C10: the batch opens the store file in truncating write mode
(`open(output_json_file, 'w')`), so whatever a previous run left on disk
is erased: after a completed run the file holds exactly the current
run's records, independently of the previous contents; within the single
run the store only grows — the store after any prefix of the manifest is
a prefix of the final store. -/
theorem C10_truncating_write (prev prev2 : List OutputRecord)
    (embed : String → Except String (List Int)) (manifest : List InputItem) (j : Nat) :
    storeFileAfterRun prev embed manifest = (runBatch embed manifest).store ∧
    storeFileAfterRun prev embed manifest = storeFileAfterRun prev2 embed manifest ∧
    (runBatch embed (manifest.take j)).store <+: (runBatch embed manifest).store := by
  refine ⟨rfl, rfl, ?_⟩
  refine ⟨(runBatchFrom embed (0 + (manifest.take j).length) (manifest.drop j)).store, ?_⟩
  conv_rhs => rw [runBatch, ← List.take_append_drop j manifest]
  rw [runBatchFrom_append]
  rfl

end ImageSample
